import Mathlib

/-!
Verification development for the VideoProcessingSystem repository.

The repository's visible source is the React frontend (`frontend/src`), the
axios service client, documentation and deployment scripts.  The backend
(Flask API gateway `api/app.py` and the worker) is not present in the source
tree, so the job-pipeline core (ingress, queue, worker, job store) is
modelled from the specification; every such definition carries a doc comment
starting with "Modelled from the spec:".  Definitions taken from actual
source files name the file and lines they embed.
-/

deriving instance DecidableEq for Except

namespace VPS

/-! ### Frontend data model (frontend/src/App.js, components) -/

/-- Job object as the frontend sees it (JSON decoded): fields used by
`App.js`, `VideoUpload.js` and `VideoList.js`. -/
structure FJob where
  job_id : String
  filename : String
  status : String
  file_size : Option Nat
  created_at : String
  deriving DecidableEq

/-- Stats record of `App.js` (useState initial shape, lines 11-16). -/
structure StatsV where
  totalJobs : Nat
  processingJobs : Nat
  completedJobs : Nat
  totalSize : Nat
  deriving DecidableEq

/-- App component state: the `jobs` list and the `stats` record. -/
structure AppState where
  jobs : List FJob
  stats : StatsV
  deriving DecidableEq

/-- Stats computation of `App.js` `loadJobs`, lines 29-38: counts and the
reduce over `file_size || 0`. -/
def computeStats (jobs : List FJob) : StatsV :=
  { totalJobs := jobs.length
    processingJobs := (jobs.filter (fun j => j.status == "processing")).length
    completedJobs := (jobs.filter (fun j => j.status == "completed")).length
    totalSize := jobs.foldl (fun sum j => sum + j.file_size.getD 0) 0 }

/-- Effect of `App.js` `loadJobs` (lines 22-45) once the fetch resolved with
`fetched`: `setJobs(response.jobs)` and `setStats` of the computed stats. -/
def loadJobs (st : AppState) (fetched : List FJob) : AppState :=
  { st with jobs := fetched, stats := computeStats fetched }

/-- Effect of `App.js` `handleUploadSuccess` (lines 47-55): prepend the new
job and bump `totalJobs`, `processingJobs` and `totalSize`. -/
def handleUploadSuccess (st : AppState) (newJob : FJob) : AppState :=
  { jobs := newJob :: st.jobs
    stats := { st.stats with
      totalJobs := st.stats.totalJobs + 1
      processingJobs := st.stats.processingJobs + 1
      totalSize := st.stats.totalSize + newJob.file_size.getD 0 } }

/-- Job object that `VideoUpload.js` `onDrop` passes to `onUploadSuccess`
(lines 51-57): note the hard-coded `status: 'processing'`. -/
def uploadSuccessJob (jobId filename createdAt : String) (fileSize : Nat) : FJob :=
  { job_id := jobId
    filename := filename
    status := "processing"
    file_size := some fileSize
    created_at := createdAt }

/-- Content-type allow-list of `VideoUpload.js` `onDrop`, line 16. -/
def allowedTypes : List String :=
  ["video/mp4", "video/avi", "video/mov", "video/quicktime", "video/x-msvideo"]

/-- Size ceiling of `VideoUpload.js` `onDrop`, line 23 (100MB). -/
def maxFileSize : Nat := 100 * 1024 * 1024

/-- Outcome of the `onDrop` validation: either an error message is set and
no upload request is made, or the upload proceeds. -/
inductive UploadAction where
  | reject (msg : String)
  | upload
  deriving DecidableEq

/-- Validation sequence of `VideoUpload.js` `onDrop`, lines 15-26: type
check first, then size check; on rejection `setError` fires and the handler
returns before any service call. -/
def onDropValidate (fileType : String) (fileSize : Nat) : UploadAction :=
  if allowedTypes.contains fileType = false then
    UploadAction.reject "Please upload a valid video file (MP4, AVI, MOV)"
  else if maxFileSize < fileSize then
    UploadAction.reject "File size must be less than 100MB"
  else
    UploadAction.upload

/-! ### API client error mapping (services/videoService.js response
interceptor, the unnamed axios service file, lines 24-43) -/

/-- Body of an error response as the interceptor reads it: the optional
`error` string of `error.response.data`. -/
structure ApiRespData where
  error : Option String
  deriving DecidableEq

/-- The `error.response` object: HTTP status and decoded data. -/
structure ApiResponse where
  status : Nat
  data : Option ApiRespData
  deriving DecidableEq

/-- The axios error object as the rejected interceptor receives it. -/
structure ApiError where
  response : Option ApiResponse
  code : Option String
  message : Option String
  deriving DecidableEq

/-- Optional chain `error.response?.data?.error`. -/
def respDataError (e : ApiError) : Option String :=
  e.response.bind (fun r => r.data.bind (fun d => d.error))

/-- JavaScript truthiness of an optional string: present and non-empty. -/
def isTruthyStr : Option String → Bool
  | some s => !(s == "")
  | none => false

/-- Condition `error.response?.status >= 500`. -/
def hasStatusGE500 (e : ApiError) : Bool :=
  match e.response with
  | some r => decide (500 ≤ r.status)
  | none => false

/-- Condition `error.response?.status === 404`. -/
def hasStatus404 (e : ApiError) : Bool :=
  match e.response with
  | some r => decide (r.status = 404)
  | none => false

/-- Message of the Error thrown by the response interceptor (service file
lines 28-42); every branch throws, so the mapping is total. -/
def errMessage (e : ApiError) : String :=
  if isTruthyStr (respDataError e) then (respDataError e).getD ""
  else if hasStatusGE500 e then "Server error. Please try again later."
  else if hasStatus404 e then "Resource not found."
  else if e.code == some "ECONNABORTED" then "Request timeout. Please try again."
  else
    match e.message with
    | some m => if m == "" then "An unexpected error occurred." else m
    | none => "An unexpected error occurred."

/-! ### Backend job-pipeline model -/

/-- Modelled from the spec: the four-valued `status` enum of the Job record
(section 3, the backend itself is absent from the source tree). -/
inductive Status where
  | pending
  | processing
  | completed
  | failed
  deriving DecidableEq

/-- Modelled from the spec: the Job record, the only persistent entity
(section 3).  Timestamps are abstract Nat instants. -/
structure Job where
  job_id : String
  filename : String
  file_size : Option Nat
  content_type : String
  input_key : String
  output_key : Option String
  thumbnail_key : Option String
  status : Status
  attempt_count : Nat
  error_message : Option String
  created_at : Nat
  updated_at : Nat
  deriving DecidableEq

/-- Modelled from the spec: the dispatch message schema
`job_id, input_key` (section 6). -/
structure QueueMsg where
  job_id : String
  input_key : String
  deriving DecidableEq

/-- Modelled from the spec: the shared durable state - blob keys written,
the job store, the published dispatch messages, plus the admission counter
backing the opaque id generator. -/
structure SystemState where
  blobs : List String
  jobs : List Job
  queue : List QueueMsg
  nextId : Nat
  deriving DecidableEq

/-- Modelled from the spec: `job_id` is an opaque unique identifier
generated at admission (section 3); the generator itself is outside the
visible source, so it is modelled as a counter-indexed non-empty string. -/
def genJobId (n : Nat) : String :=
  String.mk (List.replicate (n + 1) 'j')

/-- Lookup of the job record keyed by `job_id`. -/
def findJob (jobs : List Job) (id : String) : Option Job :=
  jobs.find? (fun j => j.job_id == id)

/-- Store write replacing the record whose `job_id` matches the updated
record (the job store is keyed by `job_id`). -/
def updateJob (jobs : List Job) (j' : Job) : List Job :=
  jobs.map (fun j => if j.job_id == j'.job_id then j' else j)

/-- Empty initial state of the system. -/
def initState : SystemState :=
  { blobs := [], jobs := [], queue := [], nextId := 0 }

/-- Modelled from the spec: the Ingress failure taxonomy for `Submit`
(section 4.1). -/
inductive SubmitError where
  | InvalidInput
  | StorageUnavailable
  deriving DecidableEq

/-- Modelled from the spec: the `POST /upload` success body
`job_id, filename` (section 6 REST table; the frontend caller reads both
fields). -/
structure SubmitResponse where
  job_id : String
  filename : String
  deriving DecidableEq

/-- Modelled from the spec: the Job record Ingress creates at admission
(section 4.1 step 2) - `status = pending`, `attempt_count = 0`, input key
derived deterministically from the generated id. -/
def submitJob (st : SystemState) (contentType filename : String) (size now : Nat) : Job :=
  { job_id := genJobId st.nextId
    filename := filename
    file_size := some size
    content_type := contentType
    input_key := "input/" ++ genJobId st.nextId
    output_key := none
    thumbnail_key := none
    status := Status.pending
    attempt_count := 0
    error_message := none
    created_at := now
    updated_at := now }

/-- Modelled from the spec: Ingress `Submit` (section 4.1).  Validates
content type against the allow-list and size against the fixed ceiling
before touching storage; on success generates the id, writes the input
blob, creates the Job record with `status = pending`, then publishes the
dispatch message.  Storage/broker outages (`StorageUnavailable`) are
external-collaborator failures and are not modelled on this happy path. -/
def Submit (st : SystemState) (contentType filename : String) (size now : Nat) :
    SystemState × Except SubmitError SubmitResponse :=
  if allowedTypes.contains contentType = false ∨ maxFileSize < size then
    (st, Except.error SubmitError.InvalidInput)
  else
    let job := submitJob st contentType filename size now
    ({ blobs := job.input_key :: st.blobs
       jobs := job :: st.jobs
       queue := { job_id := job.job_id, input_key := job.input_key } :: st.queue
       nextId := st.nextId + 1 },
     Except.ok { job_id := job.job_id, filename := filename })

/-- Modelled from the spec: queue ack/nack decisions of the worker. -/
inductive AckAction where
  | ack
  | nack
  deriving DecidableEq

/-- Modelled from the spec: the record after the atomic
`pending to processing` claim - `attempt_count` incremented, `updated_at`
touched (sections 3, 4.3). -/
def claimedJob (j : Job) (now : Nat) : Job :=
  { j with status := Status.processing
           attempt_count := j.attempt_count + 1
           updated_at := now }

/-- Modelled from the spec: the record after a successful transform -
`completed` with the output and thumbnail keys set (section 4.3). -/
def completedJob (j : Job) (id : String) (now : Nat) : Job :=
  { j with status := Status.completed
           output_key := some ("output/" ++ id)
           thumbnail_key := some ("thumbnail/" ++ id)
           updated_at := now }

/-- Modelled from the spec: the record after a below-ceiling failure -
back to `pending` awaiting redelivery (section 4.3). -/
def retriedJob (j : Job) (now : Nat) : Job :=
  { j with status := Status.pending, updated_at := now }

/-- Modelled from the spec: the record after an at-ceiling failure -
terminal `failed` with `error_message` set (section 4.3). -/
def failedJob (j : Job) (emsg : String) (now : Nat) : Job :=
  { j with status := Status.failed
           error_message := some emsg
           updated_at := now }

/-- Modelled from the spec: worker receipt of a dispatch message
(section 4.3).  Missing record: nack without mutating.  Terminal status:
ack immediately without reprocessing (the idempotency boundary).  Already
`processing`: the atomic claim fails, ack and drop.  `pending`: the atomic
conditional update claims the job, incrementing `attempt_count`; `none` in
the second component means the delivery is now held in-flight and not yet
acked. -/
def deliver (st : SystemState) (msg : QueueMsg) (now : Nat) :
    SystemState × Option AckAction :=
  match findJob st.jobs msg.job_id with
  | none => (st, some AckAction.nack)
  | some j =>
    if j.status = Status.completed ∨ j.status = Status.failed then
      (st, some AckAction.ack)
    else if j.status = Status.processing then
      (st, some AckAction.ack)
    else
      ({ st with jobs := updateJob st.jobs (claimedJob j now) }, none)

/-- Modelled from the spec: successful end of the external transform for
the in-flight delivery of `id` (section 4.3): store the output and
thumbnail blobs, atomically transition `processing` to `completed` with
the keys set, and ack. -/
def finishOk (st : SystemState) (id : String) (now : Nat) :
    SystemState × Option AckAction :=
  match findJob st.jobs id with
  | none => (st, none)
  | some j =>
    if j.status = Status.processing then
      ({ st with
          blobs := ("output/" ++ id) :: ("thumbnail/" ++ id) :: st.blobs
          jobs := updateJob st.jobs (completedJob j id now) },
       some AckAction.ack)
    else (st, none)

/-- Modelled from the spec: transform or I/O failure for the in-flight
delivery of `id` (section 4.3): below the attempt ceiling transition back
to `pending` and nack for a bounded retry; at or above the ceiling
transition to terminal `failed` with `error_message` set and ack. -/
def finishErr (maxAttempts : Nat) (st : SystemState) (id emsg : String) (now : Nat) :
    SystemState × Option AckAction :=
  match findJob st.jobs id with
  | none => (st, none)
  | some j =>
    if j.status = Status.processing then
      if j.attempt_count < maxAttempts then
        ({ st with jobs := updateJob st.jobs (retriedJob j now) },
         some AckAction.nack)
      else
        ({ st with jobs := updateJob st.jobs (failedJob j emsg now) },
         some AckAction.ack)
    else (st, none)

/-- Modelled from the spec: failure taxonomy of the result-retrieval
endpoints (sections 4.1 and 7). -/
inductive RefError where
  | NotFound
  | NotReady
  deriving DecidableEq

/-- Modelled from the spec: `GetDownloadRef` (section 4.1) - a storage
reference only when `status = completed`, else `NotReady`; `NotFound` for
an unknown `job_id`. -/
def GetDownloadRef (st : SystemState) (id : String) : Except RefError String :=
  match findJob st.jobs id with
  | none => Except.error RefError.NotFound
  | some j =>
    if j.status = Status.completed then Except.ok (j.output_key.getD "")
    else Except.error RefError.NotReady

/-- Modelled from the spec: `GetThumbnailRef` (section 4.1), same contract
as `GetDownloadRef` over the thumbnail key. -/
def GetThumbnailRef (st : SystemState) (id : String) : Except RefError String :=
  match findJob st.jobs id with
  | none => Except.error RefError.NotFound
  | some j =>
    if j.status = Status.completed then Except.ok (j.thumbnail_key.getD "")
    else Except.error RefError.NotReady

/-- Modelled from the spec: the atomic operations on the shared state - a
submission, a delivery receipt, and the two ends of an in-flight
transform (sections 4.1, 4.3, 5).  `maxAttempts` is the configured
ceiling. -/
inductive Step (maxAttempts : Nat) : SystemState → SystemState → Prop where
  | submit (st : SystemState) (ct fn : String) (sz now : Nat) :
      Step maxAttempts st (Submit st ct fn sz now).1
  | deliver (st : SystemState) (msg : QueueMsg) (now : Nat) :
      Step maxAttempts st (deliver st msg now).1
  | finishOk (st : SystemState) (id : String) (now : Nat) :
      Step maxAttempts st (finishOk st id now).1
  | finishErr (st : SystemState) (id emsg : String) (now : Nat) :
      Step maxAttempts st (finishErr maxAttempts st id emsg now).1

/-- States reachable from the empty system by the atomic operations. -/
def Reach (maxAttempts : Nat) (st : SystemState) : Prop :=
  Relation.ReflTransGen (Step maxAttempts) initState st

/-- Ids in the store are bounded in length by the admission counter; this
is what makes each generated id fresh. -/
def IdLenOK (st : SystemState) : Prop :=
  ∀ j ∈ st.jobs, j.job_id.length ≤ st.nextId

/-- Attempt count of the record stored under `id`, zero when absent. -/
def attemptOf (st : SystemState) (id : String) : Nat :=
  match findJob st.jobs id with
  | some j => j.attempt_count
  | none => 0

/-- Modelled from the spec: the allowed atomic status transitions -
staying put, `pending` to `processing` (claim), `processing` to
`completed` or `failed` (finish) or back to `pending` (bounded retry
re-enqueue), per sections 3 and 4.3. -/
def allowedTransition (a b : Status) : Prop :=
  a = b ∨
  (a = Status.pending ∧ b = Status.processing) ∨
  (a = Status.processing ∧
    (b = Status.completed ∨ b = Status.failed ∨ b = Status.pending))

/-- Per-record attempt-ceiling invariant: the count never exceeds the
ceiling, and a `pending` record is strictly below it (it still has a
retry left by construction of the failure path). -/
def JobOK (maxAttempts : Nat) (j : Job) : Prop :=
  j.attempt_count ≤ maxAttempts ∧
  (j.status = Status.pending → j.attempt_count < maxAttempts)

/-! ### Concrete demonstration states (used by witnesses) -/

/-- State after one valid submission into the empty system. -/
def demoSt1 : SystemState := (Submit initState "video/mp4" "a.mp4" 10 0).1

/-- The id the first admission generates. -/
def demoId : String := genJobId 0

/-- Dispatch message of the first admission. -/
def demoMsg : QueueMsg := { job_id := demoId, input_key := "input/" ++ demoId }

/-- State after a worker claimed the first job. -/
def demoSt2 : SystemState := (deliver demoSt1 demoMsg 1).1

/-- State after the claimed job completed successfully. -/
def demoDone : SystemState := (finishOk demoSt2 demoId 2).1

/-- The pending record demoSt1 stores. -/
def demoSubJob : Job :=
  { job_id := "j"
    filename := "a.mp4"
    file_size := some 10
    content_type := "video/mp4"
    input_key := "input/j"
    output_key := none
    thumbnail_key := none
    status := Status.pending
    attempt_count := 0
    error_message := none
    created_at := 0
    updated_at := 0 }

/-- The claimed record demoSt2 stores. -/
def demoClaimJob : Job :=
  { demoSubJob with status := Status.processing, attempt_count := 1, updated_at := 1 }

/-- The completed record demoDone stores. -/
def demoDoneJob : Job :=
  { demoClaimJob with
      status := Status.completed
      output_key := some "output/j"
      thumbnail_key := some "thumbnail/j"
      updated_at := 2 }

/-- Empty frontend app state (initial useState values of `App.js`). -/
def demoApp : AppState :=
  { jobs := []
    stats := { totalJobs := 0, processingJobs := 0, completedJobs := 0, totalSize := 0 } }

/-- Axios error with a present but empty server-supplied error string. -/
def apiErrEmpty : ApiError :=
  { response := some { status := 500, data := some { error := some "" } }
    code := none
    message := some "boom" }

/-- Axios error carrying a plain 404 with no body. -/
def apiErr404 : ApiError :=
  { response := some { status := 404, data := none }
    code := none
    message := none }

/-! ### Basic lemmas -/

theorem foldl_size (l : List FJob) (a : Nat) :
    l.foldl (fun sum j => sum + j.file_size.getD 0) a
      = a + (l.map (fun j => j.file_size.getD 0)).sum := by
  induction l generalizing a with
  | nil => simp
  | cons x xs ih => simp [List.foldl_cons, ih, Nat.add_assoc]

theorem genJobId_length (n : Nat) : (genJobId n).length = n + 1 := by
  show (List.replicate (n + 1) 'j').length = n + 1
  simp

theorem genJobId_ne_of_short (s : String) (n : Nat) (h : s.length ≤ n) :
    s ≠ genJobId n := by
  intro he
  rw [he, genJobId_length] at h
  omega

theorem findJob_cons (j : Job) (js : List Job) (id : String) :
    findJob (j :: js) id = if j.job_id = id then some j else findJob js id := by
  by_cases h : j.job_id = id
  · simp [findJob, h]
  · simp [findJob, List.find?_cons_of_neg, h]

theorem findJob_eq (js : List Job) (id : String) (j : Job)
    (h : findJob js id = some j) : j.job_id = id ∧ j ∈ js := by
  refine ⟨?_, List.mem_of_find?_eq_some h⟩
  have hp := List.find?_some h
  simpa using hp

theorem mem_updateJob (js : List Job) (j' x : Job) (hx : x ∈ updateJob js j') :
    x = j' ∨ x ∈ js := by
  unfold updateJob at hx
  rcases List.mem_map.mp hx with ⟨a, ha, hax⟩
  by_cases h : a.job_id = j'.job_id
  · left; rw [← hax]; simp [h]
  · right
    have : (if (a.job_id == j'.job_id) = true then j' else a) = a := by simp [h]
    rw [this] at hax
    exact hax ▸ ha

theorem findJob_updateJob_other (js : List Job) (j' : Job) (id : String)
    (hid : id ≠ j'.job_id) : findJob (updateJob js j') id = findJob js id := by
  induction js with
  | nil => rfl
  | cons a as ih =>
    by_cases hrep : a.job_id = j'.job_id
    · have h1 : updateJob (a :: as) j' = j' :: updateJob as j' := by
        simp [updateJob, hrep]
      rw [h1, findJob_cons, findJob_cons, if_neg (fun he => hid he.symm),
        if_neg (fun he => hid (hrep ▸ he).symm), ih]
    · have h1 : updateJob (a :: as) j' = a :: updateJob as j' := by
        simp [updateJob, hrep]
      rw [h1, findJob_cons, findJob_cons, ih]

theorem findJob_updateJob_self (js : List Job) (j' k : Job)
    (hk : findJob js j'.job_id = some k) :
    findJob (updateJob js j') j'.job_id = some j' := by
  induction js with
  | nil => cases hk
  | cons a as ih =>
    by_cases hrep : a.job_id = j'.job_id
    · have h1 : updateJob (a :: as) j' = j' :: updateJob as j' := by
        simp [updateJob, hrep]
      rw [h1, findJob_cons, if_pos rfl]
    · have h1 : updateJob (a :: as) j' = a :: updateJob as j' := by
        simp [updateJob, hrep]
      rw [findJob_cons, if_neg hrep] at hk
      rw [h1, findJob_cons, if_neg hrep, ih hk]

theorem deliver_processing (st : SystemState) (msg : QueueMsg) (now : Nat) (j : Job)
    (hf : findJob st.jobs msg.job_id = some j)
    (hp : j.status = Status.processing) :
    deliver st msg now = (st, some AckAction.ack) := by
  unfold deliver
  rw [hf]
  simp [hp]

theorem findJob_fresh (st : SystemState) (h : IdLenOK st) :
    findJob st.jobs (genJobId st.nextId) = none := by
  refine List.find?_eq_none.mpr (fun j hj => ?_)
  simp only [beq_iff_eq]
  exact genJobId_ne_of_short _ _ (h j hj)

/-! ### Claim C9: dashboard stats consistency -/

/-- Claim C9: after `loadJobs` resolves, `stats.totalJobs` equals the
length of the fetched jobs array, `stats.processingJobs` and
`stats.completedJobs` count the jobs with status `processing` and
`completed`, and `stats.totalSize` sums `file_size` with a missing size
counted as 0; and `handleUploadSuccess` preserves
`totalJobs = jobs.length`, prepending exactly one job while incrementing
`totalJobs` by exactly one. -/
theorem claim_C9 (st : AppState) (fetched : List FJob) (newJob : FJob) :
    ((loadJobs st fetched).stats.totalJobs = (loadJobs st fetched).jobs.length ∧
      (loadJobs st fetched).stats.processingJobs
        = ((loadJobs st fetched).jobs.filter (fun j => j.status == "processing")).length ∧
      (loadJobs st fetched).stats.completedJobs
        = ((loadJobs st fetched).jobs.filter (fun j => j.status == "completed")).length ∧
      (loadJobs st fetched).stats.totalSize
        = ((loadJobs st fetched).jobs.map (fun j => j.file_size.getD 0)).sum) ∧
    (st.stats.totalJobs = st.jobs.length →
      (handleUploadSuccess st newJob).stats.totalJobs
          = (handleUploadSuccess st newJob).jobs.length ∧
      (handleUploadSuccess st newJob).jobs = newJob :: st.jobs ∧
      (handleUploadSuccess st newJob).stats.totalJobs = st.stats.totalJobs + 1) := by
  refine ⟨⟨rfl, rfl, rfl, ?_⟩, fun h => ⟨?_, rfl, rfl⟩⟩
  · simp [loadJobs, computeStats, foldl_size]
  · simp [handleUploadSuccess, h]

theorem claim_C9_witness :
    demoApp.stats.totalJobs = demoApp.jobs.length ∧
    (handleUploadSuccess demoApp (uploadSuccessJob "a" "f.mp4" "t" 5)).stats.totalJobs
      = (handleUploadSuccess demoApp (uploadSuccessJob "a" "f.mp4" "t" 5)).jobs.length :=
  ⟨by decide,
   ((claim_C9 demoApp [] (uploadSuccessJob "a" "f.mp4" "t" 5)).2 (by decide)).1⟩

/-! ### Claim C10: API client error mapping -/

/-- Claim C10 counterexample: a response whose `error` field is present
but empty is not propagated - the interceptor tests JS truthiness, so the
empty string falls through and the 500 branch message is thrown
instead. -/
theorem claim_C10_counterexample :
    respDataError apiErrEmpty = some "" ∧
    errMessage apiErrEmpty = "Server error. Please try again later." ∧
    errMessage apiErrEmpty ≠ "" := by
  exact ⟨by decide, by decide, by decide⟩

/-- Claim C10 (amended): the thrown message follows the stated precedence
with the server-supplied `error.response.data.error` string taken only
when present AND non-empty (JS truthiness); then the 500, 404 and
ECONNABORTED branches; otherwise the original message when non-empty, or
the generic fallback.  Every failure path throws, so the mapping is a
total function of the error object. -/
theorem claim_C10_amended (e : ApiError) :
    (∀ s, respDataError e = some s → s ≠ "" → errMessage e = s) ∧
    (isTruthyStr (respDataError e) = false → hasStatusGE500 e = true →
      errMessage e = "Server error. Please try again later.") ∧
    (isTruthyStr (respDataError e) = false → hasStatusGE500 e = false →
      hasStatus404 e = true → errMessage e = "Resource not found.") ∧
    (isTruthyStr (respDataError e) = false → hasStatusGE500 e = false →
      hasStatus404 e = false → e.code = some "ECONNABORTED" →
      errMessage e = "Request timeout. Please try again.") ∧
    (isTruthyStr (respDataError e) = false → hasStatusGE500 e = false →
      hasStatus404 e = false → e.code ≠ some "ECONNABORTED" →
      ((∀ m, e.message = some m → m ≠ "" → errMessage e = m) ∧
       ((e.message = none ∨ e.message = some "") →
         errMessage e = "An unexpected error occurred."))) := by
  refine ⟨?_, ?_, ?_, ?_, ?_⟩
  · intro s hs hne
    unfold errMessage
    rw [hs]
    simp [isTruthyStr, hne]
  · intro h1 h2
    simp [errMessage, h1, h2]
  · intro h1 h2 h3
    simp [errMessage, h1, h2, h3]
  · intro h1 h2 h3 h4
    simp [errMessage, h1, h2, h3, h4]
  · intro h1 h2 h3 h4
    have hc : (e.code == some "ECONNABORTED") = false := by
      simpa using h4
    constructor
    · intro m hm hne
      simp [errMessage, h1, h2, h3, hc, hm, hne]
    · rintro (hm | hm) <;> simp [errMessage, h1, h2, h3, hc, hm]

theorem claim_C10_witness :
    isTruthyStr (respDataError apiErr404) = false ∧
    hasStatusGE500 apiErr404 = false ∧
    hasStatus404 apiErr404 = true ∧
    errMessage apiErr404 = "Resource not found." :=
  ⟨by decide, by decide, by decide,
   (claim_C10_amended apiErr404).2.2.1 (by decide) (by decide) (by decide)⟩

/-! ### Claim C4: status immediately after upload -/

/-- Claim C4 counterexample: the job object `VideoUpload.js` hands to
`handleUploadSuccess` right after a successful upload carries the
hard-coded status `processing`, so the list a client sees right after
upload shows `processing`, not `pending`. -/
theorem claim_C4_counterexample :
    (uploadSuccessJob "a" "f.mp4" "t" 5).status = "processing" ∧
    (handleUploadSuccess demoApp (uploadSuccessJob "a" "f.mp4" "t" 5)).jobs.head?
      = some (uploadSuccessJob "a" "f.mp4" "t" 5) ∧
    (uploadSuccessJob "a" "f.mp4" "t" 5).status ≠ "pending" := by
  exact ⟨rfl, rfl, by decide⟩

/-- Claim C4 (amended): the backend Job record created by a successful
submission has `status = pending` and `attempt_count = 0` (observable by
querying the job store), while the frontend's optimistic list entry for
the fresh upload is hard-coded to status `processing`. -/
theorem claim_C4_amended (st : SystemState) (ct fn : String) (sz now : Nat)
    (r : SubmitResponse) (h : (Submit st ct fn sz now).2 = Except.ok r) :
    (∃ j, findJob (Submit st ct fn sz now).1.jobs r.job_id = some j ∧
      j.status = Status.pending ∧ j.attempt_count = 0) ∧
    ∀ jid f c s, (uploadSuccessJob jid f c s).status = "processing" := by
  refine ⟨?_, fun jid f c s => rfl⟩
  unfold Submit at h ⊢
  by_cases hv : allowedTypes.contains ct = false ∨ maxFileSize < sz
  · rw [if_pos hv] at h
    cases h
  · rw [if_neg hv] at h ⊢
    simp only [Except.ok.injEq] at h
    refine ⟨submitJob st ct fn sz now, ?_, rfl, rfl⟩
    rw [← h, findJob_cons, if_pos rfl]

theorem claim_C4_amended_witness :
    (Submit initState "video/mp4" "a.mp4" 10 0).2
      = Except.ok (SubmitResponse.mk "j" "a.mp4") ∧
    (uploadSuccessJob "j" "a.mp4" "t0" 10).status = "processing" :=
  ⟨by decide,
   (claim_C4_amended initState "video/mp4" "a.mp4" 10 0
      (SubmitResponse.mk "j" "a.mp4") (by decide)).2 "j" "a.mp4" "t0" 10⟩

/-! ### Claim C1: download and thumbnail references -/

/-- Claim C1: a download or thumbnail reference is obtainable iff the job
exists with status `completed`; a job in any other status yields
`NotReady`, an unknown id yields `NotFound`. -/
theorem claim_C1 (st : SystemState) (id : String) :
    ((∃ r, GetDownloadRef st id = Except.ok r) ↔
      (∃ j, findJob st.jobs id = some j ∧ j.status = Status.completed)) ∧
    ((∃ r, GetThumbnailRef st id = Except.ok r) ↔
      (∃ j, findJob st.jobs id = some j ∧ j.status = Status.completed)) ∧
    (∀ j, findJob st.jobs id = some j → j.status ≠ Status.completed →
      GetDownloadRef st id = Except.error RefError.NotReady ∧
      GetThumbnailRef st id = Except.error RefError.NotReady) ∧
    (findJob st.jobs id = none →
      GetDownloadRef st id = Except.error RefError.NotFound ∧
      GetThumbnailRef st id = Except.error RefError.NotFound) := by
  rcases hf : findJob st.jobs id with _ | j
  · have hD : GetDownloadRef st id = Except.error RefError.NotFound := by
      unfold GetDownloadRef
      rw [hf]
    have hT : GetThumbnailRef st id = Except.error RefError.NotFound := by
      unfold GetThumbnailRef
      rw [hf]
    refine ⟨?_, ?_, ?_, fun _ => ⟨hD, hT⟩⟩
    · constructor
      · rintro ⟨r, hr⟩
        rw [hD] at hr
        cases hr
      · rintro ⟨j, hj, _⟩
        cases hj
    · constructor
      · rintro ⟨r, hr⟩
        rw [hT] at hr
        cases hr
      · rintro ⟨j, hj, _⟩
        cases hj
    · intro j hj
      cases hj
  · by_cases hc : j.status = Status.completed
    · have hD : GetDownloadRef st id = Except.ok (j.output_key.getD "") := by
        unfold GetDownloadRef
        rw [hf]
        simp [hc]
      have hT : GetThumbnailRef st id = Except.ok (j.thumbnail_key.getD "") := by
        unfold GetThumbnailRef
        rw [hf]
        simp [hc]
      refine ⟨⟨fun _ => ⟨j, rfl, hc⟩, fun _ => ⟨_, hD⟩⟩,
        ⟨fun _ => ⟨j, rfl, hc⟩, fun _ => ⟨_, hT⟩⟩, ?_, fun hn => by cases hn⟩
      intro k hk hkc
      cases hk
      exact absurd hc hkc
    · have hD : GetDownloadRef st id = Except.error RefError.NotReady := by
        unfold GetDownloadRef
        rw [hf]
        simp [hc]
      have hT : GetThumbnailRef st id = Except.error RefError.NotReady := by
        unfold GetThumbnailRef
        rw [hf]
        simp [hc]
      refine ⟨?_, ?_, fun k hk _ => by cases hk; exact ⟨hD, hT⟩, fun hn => by cases hn⟩
      · constructor
        · rintro ⟨r, hr⟩
          rw [hD] at hr
          cases hr
        · rintro ⟨k, hk, hkc⟩
          cases hk
          exact absurd hkc hc
      · constructor
        · rintro ⟨r, hr⟩
          rw [hT] at hr
          cases hr
        · rintro ⟨k, hk, hkc⟩
          cases hk
          exact absurd hkc hc

theorem claim_C1_witness :
    GetDownloadRef demoSt1 demoId = Except.error RefError.NotReady ∧
    GetDownloadRef initState "x" = Except.error RefError.NotFound ∧
    GetThumbnailRef demoDone demoId = Except.ok "thumbnail/j" :=
  ⟨((claim_C1 demoSt1 demoId).2.2.1 demoSubJob (by decide) (by decide)).1,
   ((claim_C1 initState "x").2.2.2 rfl).1,
   by decide⟩

/-! ### Claim C2: early validation rejects without touching state -/

/-- Claim C2: a submission whose content type is outside the allow-list or
whose size exceeds the 100MB ceiling is rejected with `InvalidInput`
before touching storage - the system state is returned unchanged (no blob,
no Job record, no queue message), and the frontend `onDrop` validation
likewise rejects before any upload request is made. -/
theorem claim_C2 (st : SystemState) (ct fn : String) (sz now : Nat)
    (h : allowedTypes.contains ct = false ∨ maxFileSize < sz) :
    Submit st ct fn sz now = (st, Except.error SubmitError.InvalidInput) ∧
    (Submit st ct fn sz now).1.blobs = st.blobs ∧
    (Submit st ct fn sz now).1.jobs = st.jobs ∧
    (Submit st ct fn sz now).1.queue = st.queue ∧
    onDropValidate ct sz ≠ UploadAction.upload := by
  have hS : Submit st ct fn sz now = (st, Except.error SubmitError.InvalidInput) := by
    unfold Submit
    rw [if_pos h]
  refine ⟨hS, by rw [hS], by rw [hS], by rw [hS], ?_⟩
  unfold onDropValidate
  rcases h with h | h
  · rw [if_pos h]
    simp
  · by_cases h2 : allowedTypes.contains ct = false
    · rw [if_pos h2]
      simp
    · rw [if_neg h2, if_pos h]
      simp

theorem claim_C2_witness :
    Submit initState "text/plain" "notes.txt" 1 0
      = (initState, Except.error SubmitError.InvalidInput) ∧
    onDropValidate "text/plain" 1 ≠ UploadAction.upload :=
  (fun h => ⟨h.1, h.2.2.2.2⟩)
    (claim_C2 initState "text/plain" "notes.txt" 1 0 (Or.inl (by decide)))

/-! ### Claim C3: upload response carries job id and filename -/

/-- Claim C3: every successful submission returns a response holding the
generated (non-empty) `job_id` together with the submitted filename, and
the returned id addresses the Job record just created. -/
theorem claim_C3 (st : SystemState) (ct fn : String) (sz now : Nat)
    (r : SubmitResponse) (h : (Submit st ct fn sz now).2 = Except.ok r) :
    r.job_id ≠ "" ∧ r.filename = fn ∧
    ∃ j, findJob (Submit st ct fn sz now).1.jobs r.job_id = some j ∧
      j.job_id = r.job_id := by
  unfold Submit at h ⊢
  by_cases hv : allowedTypes.contains ct = false ∨ maxFileSize < sz
  · rw [if_pos hv] at h
    cases h
  · rw [if_neg hv] at h ⊢
    simp only [Except.ok.injEq] at h
    refine ⟨?_, ?_, submitJob st ct fn sz now, ?_, ?_⟩
    · rw [← h]
      intro he
      have he2 : genJobId st.nextId = "" := he
      have hl := genJobId_length st.nextId
      rw [he2] at hl
      simp at hl
    · rw [← h]
    · rw [← h, findJob_cons, if_pos rfl]
    · rw [← h]

theorem claim_C3_witness :
    (Submit initState "video/mp4" "a.mp4" 10 0).2
      = Except.ok (SubmitResponse.mk "j" "a.mp4") ∧
    (SubmitResponse.mk "j" "a.mp4").job_id ≠ "" :=
  ⟨by decide,
   (claim_C3 initState "video/mp4" "a.mp4" 10 0
      (SubmitResponse.mk "j" "a.mp4") (by decide)).1⟩

/-! ### Claim C6: terminal-status redelivery is a no-op up to acking -/

/-- Claim C6: delivering a dispatch message for a job whose status is
already terminal (`completed` or `failed`) acks immediately and leaves the
whole system state - every Job field including `updated_at`, and the blob
store - literally unchanged. -/
theorem claim_C6 (st : SystemState) (msg : QueueMsg) (now : Nat) (j : Job)
    (hf : findJob st.jobs msg.job_id = some j)
    (hj : j.status = Status.completed ∨ j.status = Status.failed) :
    deliver st msg now = (st, some AckAction.ack) := by
  unfold deliver
  rw [hf]
  simp [hj]

theorem claim_C6_witness :
    findJob demoDone.jobs demoMsg.job_id = some demoDoneJob ∧
    deliver demoDone demoMsg 5 = (demoDone, some AckAction.ack) :=
  ⟨by decide,
   claim_C6 demoDone demoMsg 5 demoDoneJob (by decide) (Or.inl (by decide))⟩

/-! ### Claim C8: the claim race has exactly one winner -/

/-- Claim C8: two deliveries racing on one `pending` job (serialized by
the atomic conditional update, per the spec's concurrency model): the
first claim succeeds - the record moves to `processing` with
`attempt_count` incremented and the delivery stays in flight - while the
second delivery observes the failed conditional update, acks, and performs
no side effects: the state it returns is exactly the state it saw. -/
theorem claim_C8 (st : SystemState) (msg : QueueMsg) (now1 now2 : Nat) (j : Job)
    (hf : findJob st.jobs msg.job_id = some j)
    (hp : j.status = Status.pending) :
    (deliver st msg now1).2 = none ∧
    findJob (deliver st msg now1).1.jobs msg.job_id = some (claimedJob j now1) ∧
    (claimedJob j now1).status = Status.processing ∧
    (claimedJob j now1).attempt_count = j.attempt_count + 1 ∧
    deliver (deliver st msg now1).1 msg now2
      = ((deliver st msg now1).1, some AckAction.ack) := by
  have hno1 : ¬(j.status = Status.completed ∨ j.status = Status.failed) := by
    rw [hp]
    rintro (h | h) <;> cases h
  have hno2 : ¬j.status = Status.processing := by
    rw [hp]
    intro h
    cases h
  have hd1 : deliver st msg now1
      = ({ st with jobs := updateJob st.jobs (claimedJob j now1) }, none) := by
    unfold deliver
    rw [hf]
    simp [hno1, hno2]
  have hid : (claimedJob j now1).job_id = msg.job_id := (findJob_eq _ _ _ hf).1
  have hf1 : findJob (deliver st msg now1).1.jobs msg.job_id
      = some (claimedJob j now1) := by
    rw [hd1]
    show findJob (updateJob st.jobs (claimedJob j now1)) msg.job_id = _
    rw [← hid]
    exact findJob_updateJob_self st.jobs (claimedJob j now1) j (by rw [hid, hf])
  refine ⟨by rw [hd1], hf1, rfl, rfl, ?_⟩
  exact deliver_processing _ _ _ _ hf1 rfl

/-! ### Evaluation lemmas for the worker operations -/

theorem deliver_missing (st : SystemState) (msg : QueueMsg) (now : Nat)
    (hf : findJob st.jobs msg.job_id = none) :
    deliver st msg now = (st, some AckAction.nack) := by
  unfold deliver
  rw [hf]

theorem deliver_terminal (st : SystemState) (msg : QueueMsg) (now : Nat) (j : Job)
    (hf : findJob st.jobs msg.job_id = some j)
    (hj : j.status = Status.completed ∨ j.status = Status.failed) :
    deliver st msg now = (st, some AckAction.ack) := by
  unfold deliver
  rw [hf]
  simp [hj]

theorem deliver_pending (st : SystemState) (msg : QueueMsg) (now : Nat) (j : Job)
    (hf : findJob st.jobs msg.job_id = some j)
    (hp : j.status = Status.pending) :
    deliver st msg now
      = ({ st with jobs := updateJob st.jobs (claimedJob j now) }, none) := by
  unfold deliver
  rw [hf]
  simp [hp]

theorem finishOk_missing (st : SystemState) (id : String) (now : Nat)
    (hf : findJob st.jobs id = none) :
    finishOk st id now = (st, none) := by
  unfold finishOk
  rw [hf]

theorem finishOk_skip (st : SystemState) (id : String) (now : Nat) (j : Job)
    (hf : findJob st.jobs id = some j) (hp : ¬j.status = Status.processing) :
    finishOk st id now = (st, none) := by
  unfold finishOk
  rw [hf]
  simp [hp]

theorem finishOk_run (st : SystemState) (id : String) (now : Nat) (j : Job)
    (hf : findJob st.jobs id = some j) (hp : j.status = Status.processing) :
    finishOk st id now
      = ({ st with
            blobs := ("output/" ++ id) :: ("thumbnail/" ++ id) :: st.blobs
            jobs := updateJob st.jobs (completedJob j id now) },
         some AckAction.ack) := by
  unfold finishOk
  rw [hf]
  simp [hp]

theorem finishErr_missing (cfg : Nat) (st : SystemState) (id emsg : String) (now : Nat)
    (hf : findJob st.jobs id = none) :
    finishErr cfg st id emsg now = (st, none) := by
  unfold finishErr
  rw [hf]

theorem finishErr_skip (cfg : Nat) (st : SystemState) (id emsg : String) (now : Nat)
    (j : Job) (hf : findJob st.jobs id = some j)
    (hp : ¬j.status = Status.processing) :
    finishErr cfg st id emsg now = (st, none) := by
  unfold finishErr
  rw [hf]
  simp [hp]

theorem finishErr_retry (cfg : Nat) (st : SystemState) (id emsg : String) (now : Nat)
    (j : Job) (hf : findJob st.jobs id = some j)
    (hp : j.status = Status.processing) (hlt : j.attempt_count < cfg) :
    finishErr cfg st id emsg now
      = ({ st with jobs := updateJob st.jobs (retriedJob j now) },
         some AckAction.nack) := by
  unfold finishErr
  rw [hf]
  simp [hp, hlt]

theorem finishErr_fail (cfg : Nat) (st : SystemState) (id emsg : String) (now : Nat)
    (j : Job) (hf : findJob st.jobs id = some j)
    (hp : j.status = Status.processing) (hge : ¬j.attempt_count < cfg) :
    finishErr cfg st id emsg now
      = ({ st with jobs := updateJob st.jobs (failedJob j emsg now) },
         some AckAction.ack) := by
  unfold finishErr
  rw [hf]
  simp [hp, hge]

theorem Submit_cases (st : SystemState) (ct fn : String) (sz now : Nat) :
    (Submit st ct fn sz now).1 = st ∨
    (Submit st ct fn sz now).1 =
      { blobs := (submitJob st ct fn sz now).input_key :: st.blobs
        jobs := submitJob st ct fn sz now :: st.jobs
        queue := { job_id := (submitJob st ct fn sz now).job_id,
                   input_key := (submitJob st ct fn sz now).input_key } :: st.queue
        nextId := st.nextId + 1 } := by
  unfold Submit
  by_cases hv : allowedTypes.contains ct = false ∨ maxFileSize < sz
  · rw [if_pos hv]
    exact Or.inl rfl
  · rw [if_neg hv]
    exact Or.inr rfl

/-! ### One-step lemma: how a single atomic operation moves one record -/

theorem step_find (cfg : Nat) (st st' : SystemState) (h : Step cfg st st')
    (hlen : IdLenOK st) (id : String) (j : Job)
    (hf : findJob st.jobs id = some j) :
    findJob st'.jobs id = some j ∨
    (j.status = Status.pending ∧ ∃ t, findJob st'.jobs id = some (claimedJob j t)) ∨
    (j.status = Status.processing ∧
      ∃ t, findJob st'.jobs id = some (completedJob j id t)) ∨
    (j.status = Status.processing ∧ j.attempt_count < cfg ∧
      ∃ t, findJob st'.jobs id = some (retriedJob j t)) ∨
    (j.status = Status.processing ∧ cfg ≤ j.attempt_count ∧
      ∃ t m, findJob st'.jobs id = some (failedJob j m t)) := by
  cases h with
  | submit ct fn sz now =>
    left
    rcases Submit_cases st ct fn sz now with hs | hs <;> rw [hs]
    · exact hf
    · show findJob (submitJob st ct fn sz now :: st.jobs) id = some j
      have hne : ¬(submitJob st ct fn sz now).job_id = id := by
        intro he
        have he2 : genJobId st.nextId = id := he
        obtain ⟨hjid, hjmem⟩ := findJob_eq _ _ _ hf
        have hle : j.job_id.length ≤ st.nextId := hlen j hjmem
        rw [hjid, ← he2, genJobId_length] at hle
        omega
      rw [findJob_cons, if_neg hne]
      exact hf
  | deliver msg now =>
    rcases hfm : findJob st.jobs msg.job_id with _ | k
    · rw [deliver_missing st msg now hfm]
      exact Or.inl hf
    · by_cases hterm : k.status = Status.completed ∨ k.status = Status.failed
      · rw [deliver_terminal st msg now k hfm hterm]
        exact Or.inl hf
      · by_cases hproc : k.status = Status.processing
        · rw [deliver_processing st msg now k hfm hproc]
          exact Or.inl hf
        · have hpend : k.status = Status.pending := by
            cases hsk : k.status
            · rfl
            · exact absurd hsk hproc
            · exact absurd (Or.inl hsk) hterm
            · exact absurd (Or.inr hsk) hterm
          rw [deliver_pending st msg now k hfm hpend]
          have hcid : (claimedJob k now).job_id = k.job_id := rfl
          have hkid : k.job_id = msg.job_id := (findJob_eq _ _ _ hfm).1
          by_cases hid : id = k.job_id
          · have hjk : j = k := by
              rw [hid, hkid, hfm] at hf
              injection hf with h2
              exact h2.symm
            rw [hjk] at hf
            right
            left
            refine ⟨by rw [hjk]; exact hpend, now, ?_⟩
            show findJob (updateJob st.jobs (claimedJob k now)) id
              = some (claimedJob j now)
            rw [hjk, hid]
            exact findJob_updateJob_self st.jobs (claimedJob k now) k
              (by rw [hcid]; exact hid ▸ hf)
          · left
            show findJob (updateJob st.jobs (claimedJob k now)) id = some j
            rw [findJob_updateJob_other _ _ _ (by rw [hcid]; exact hid)]
            exact hf
  | finishOk fid now =>
    rcases hfm : findJob st.jobs fid with _ | k
    · rw [finishOk_missing st fid now hfm]
      exact Or.inl hf
    · by_cases hproc : k.status = Status.processing
      · rw [finishOk_run st fid now k hfm hproc]
        have hcid : (completedJob k fid now).job_id = k.job_id := rfl
        have hkid : k.job_id = fid := (findJob_eq _ _ _ hfm).1
        by_cases hid : id = k.job_id
        · have hjk : j = k := by
            rw [hid, hkid, hfm] at hf
            injection hf with h2
            exact h2.symm
          rw [hjk] at hf
          right
          right
          left
          refine ⟨by rw [hjk]; exact hproc, now, ?_⟩
          show findJob (updateJob st.jobs (completedJob k fid now)) id
            = some (completedJob j id now)
          rw [hjk, hid, hkid]
          have hself : findJob (updateJob st.jobs (completedJob k fid now))
              (completedJob k fid now).job_id = some (completedJob k fid now) :=
            findJob_updateJob_self st.jobs (completedJob k fid now) k
              (by rw [hcid, hkid]; exact hfm)
          rw [hcid, hkid] at hself
          exact hself
        · left
          show findJob (updateJob st.jobs (completedJob k fid now)) id = some j
          rw [findJob_updateJob_other _ _ _ (by rw [hcid]; exact hid)]
          exact hf
      · rw [finishOk_skip st fid now k hfm hproc]
        exact Or.inl hf
  | finishErr fid emsg now =>
    rcases hfm : findJob st.jobs fid with _ | k
    · rw [finishErr_missing cfg st fid emsg now hfm]
      exact Or.inl hf
    · by_cases hproc : k.status = Status.processing
      · by_cases hlt : k.attempt_count < cfg
        · rw [finishErr_retry cfg st fid emsg now k hfm hproc hlt]
          have hcid : (retriedJob k now).job_id = k.job_id := rfl
          have hkid : k.job_id = fid := (findJob_eq _ _ _ hfm).1
          by_cases hid : id = k.job_id
          · have hjk : j = k := by
              rw [hid, hkid, hfm] at hf
              injection hf with h2
              exact h2.symm
            rw [hjk] at hf
            right
            right
            right
            left
            refine ⟨by rw [hjk]; exact hproc, by rw [hjk]; exact hlt, now, ?_⟩
            show findJob (updateJob st.jobs (retriedJob k now)) id
              = some (retriedJob j now)
            rw [hjk, hid]
            exact findJob_updateJob_self st.jobs (retriedJob k now) k
              (by rw [hcid]; exact hid ▸ hf)
          · left
            show findJob (updateJob st.jobs (retriedJob k now)) id = some j
            rw [findJob_updateJob_other _ _ _ (by rw [hcid]; exact hid)]
            exact hf
        · rw [finishErr_fail cfg st fid emsg now k hfm hproc hlt]
          have hcid : (failedJob k emsg now).job_id = k.job_id := rfl
          have hkid : k.job_id = fid := (findJob_eq _ _ _ hfm).1
          by_cases hid : id = k.job_id
          · have hjk : j = k := by
              rw [hid, hkid, hfm] at hf
              injection hf with h2
              exact h2.symm
            rw [hjk] at hf
            right
            right
            right
            right
            refine ⟨by rw [hjk]; exact hproc, by rw [hjk]; omega, now, emsg, ?_⟩
            show findJob (updateJob st.jobs (failedJob k emsg now)) id
              = some (failedJob j emsg now)
            rw [hjk, hid]
            exact findJob_updateJob_self st.jobs (failedJob k emsg now) k
              (by rw [hcid]; exact hid ▸ hf)
          · left
            show findJob (updateJob st.jobs (failedJob k emsg now)) id = some j
            rw [findJob_updateJob_other _ _ _ (by rw [hcid]; exact hid)]
            exact hf
      · rw [finishErr_skip cfg st fid emsg now k hfm hproc]
        exact Or.inl hf

/-! ### Invariant preservation -/

theorem IdLen_update (js : List Job) (n : Nat) (k j' : Job) (hk : k ∈ js)
    (hid : j'.job_id = k.job_id) (h : ∀ x ∈ js, x.job_id.length ≤ n) :
    ∀ x ∈ updateJob js j', x.job_id.length ≤ n := by
  intro x hx
  rcases mem_updateJob _ _ _ hx with hx1 | hx2
  · rw [hx1, hid]
    exact h k hk
  · exact h x hx2

theorem step_IdLenOK (cfg : Nat) (st st' : SystemState) (h : Step cfg st st')
    (hlen : IdLenOK st) : IdLenOK st' := by
  cases h with
  | submit ct fn sz now =>
    rcases Submit_cases st ct fn sz now with hs | hs <;> rw [hs]
    · exact hlen
    · intro x hx
      rcases List.mem_cons.mp hx with hx1 | hx2
      · rw [hx1]
        show (genJobId st.nextId).length ≤ st.nextId + 1
        rw [genJobId_length]
      · exact le_trans (hlen x hx2) (Nat.le_succ _)
  | deliver msg now =>
    rcases hfm : findJob st.jobs msg.job_id with _ | k
    · rw [deliver_missing st msg now hfm]
      exact hlen
    · by_cases hterm : k.status = Status.completed ∨ k.status = Status.failed
      · rw [deliver_terminal st msg now k hfm hterm]
        exact hlen
      · by_cases hproc : k.status = Status.processing
        · rw [deliver_processing st msg now k hfm hproc]
          exact hlen
        · have hpend : k.status = Status.pending := by
            cases hsk : k.status
            · rfl
            · exact absurd hsk hproc
            · exact absurd (Or.inl hsk) hterm
            · exact absurd (Or.inr hsk) hterm
          rw [deliver_pending st msg now k hfm hpend]
          exact IdLen_update st.jobs st.nextId k (claimedJob k now)
            (findJob_eq _ _ _ hfm).2 rfl hlen
  | finishOk fid now =>
    rcases hfm : findJob st.jobs fid with _ | k
    · rw [finishOk_missing st fid now hfm]
      exact hlen
    · by_cases hproc : k.status = Status.processing
      · rw [finishOk_run st fid now k hfm hproc]
        exact IdLen_update st.jobs st.nextId k (completedJob k fid now)
          (findJob_eq _ _ _ hfm).2 rfl hlen
      · rw [finishOk_skip st fid now k hfm hproc]
        exact hlen
  | finishErr fid emsg now =>
    rcases hfm : findJob st.jobs fid with _ | k
    · rw [finishErr_missing cfg st fid emsg now hfm]
      exact hlen
    · by_cases hproc : k.status = Status.processing
      · by_cases hlt : k.attempt_count < cfg
        · rw [finishErr_retry cfg st fid emsg now k hfm hproc hlt]
          exact IdLen_update st.jobs st.nextId k (retriedJob k now)
            (findJob_eq _ _ _ hfm).2 rfl hlen
        · rw [finishErr_fail cfg st fid emsg now k hfm hproc hlt]
          exact IdLen_update st.jobs st.nextId k (failedJob k emsg now)
            (findJob_eq _ _ _ hfm).2 rfl hlen
      · rw [finishErr_skip cfg st fid emsg now k hfm hproc]
        exact hlen

theorem reach_IdLenOK (cfg : Nat) (st : SystemState) (h : Reach cfg st) :
    IdLenOK st := by
  induction h with
  | refl =>
    intro x hx
    cases hx
  | tail h1 h2 ih => exact step_IdLenOK cfg _ _ h2 ih

theorem claim_C8_witness :
    (deliver demoSt1 demoMsg 1).2 = none ∧
    deliver demoSt2 demoMsg 2 = (demoSt2, some AckAction.ack) :=
  (fun h => ⟨h.1, h.2.2.2.2⟩)
    (claim_C8 demoSt1 demoMsg 1 2 demoSubJob (by decide) (by decide))

theorem JobOK_update (cfg : Nat) (js : List Job) (k j' : Job) (_hk : k ∈ js)
    (hok : ∀ x ∈ js, JobOK cfg x) (hj' : JobOK cfg j') :
    ∀ x ∈ updateJob js j', JobOK cfg x := by
  intro x hx
  rcases mem_updateJob _ _ _ hx with hx1 | hx2
  · rw [hx1]
    exact hj'
  · exact hok x hx2

theorem step_JobOK (cfg : Nat) (st st' : SystemState) (hcfg : 0 < cfg)
    (h : Step cfg st st') (hok : ∀ x ∈ st.jobs, JobOK cfg x) :
    ∀ x ∈ st'.jobs, JobOK cfg x := by
  cases h with
  | submit ct fn sz now =>
    rcases Submit_cases st ct fn sz now with hs | hs <;> rw [hs]
    · exact hok
    · intro x hx
      rcases List.mem_cons.mp hx with hx1 | hx2
      · rw [hx1]
        exact ⟨Nat.zero_le _, fun _ => hcfg⟩
      · exact hok x hx2
  | deliver msg now =>
    rcases hfm : findJob st.jobs msg.job_id with _ | k
    · rw [deliver_missing st msg now hfm]
      exact hok
    · by_cases hterm : k.status = Status.completed ∨ k.status = Status.failed
      · rw [deliver_terminal st msg now k hfm hterm]
        exact hok
      · by_cases hproc : k.status = Status.processing
        · rw [deliver_processing st msg now k hfm hproc]
          exact hok
        · have hpend : k.status = Status.pending := by
            cases hsk : k.status
            · rfl
            · exact absurd hsk hproc
            · exact absurd (Or.inl hsk) hterm
            · exact absurd (Or.inr hsk) hterm
          rw [deliver_pending st msg now k hfm hpend]
          have hkmem := (findJob_eq _ _ _ hfm).2
          have hklt : k.attempt_count < cfg := (hok k hkmem).2 hpend
          refine JobOK_update cfg st.jobs k (claimedJob k now) hkmem hok ⟨?_, ?_⟩
          · show k.attempt_count + 1 ≤ cfg
            omega
          · intro hq
            exact Status.noConfusion (show Status.processing = Status.pending from hq)
  | finishOk fid now =>
    rcases hfm : findJob st.jobs fid with _ | k
    · rw [finishOk_missing st fid now hfm]
      exact hok
    · by_cases hproc : k.status = Status.processing
      · rw [finishOk_run st fid now k hfm hproc]
        have hkmem := (findJob_eq _ _ _ hfm).2
        refine JobOK_update cfg st.jobs k (completedJob k fid now) hkmem hok ⟨?_, ?_⟩
        · show k.attempt_count ≤ cfg
          exact (hok k hkmem).1
        · intro hq
          exact Status.noConfusion (show Status.completed = Status.pending from hq)
      · rw [finishOk_skip st fid now k hfm hproc]
        exact hok
  | finishErr fid emsg now =>
    rcases hfm : findJob st.jobs fid with _ | k
    · rw [finishErr_missing cfg st fid emsg now hfm]
      exact hok
    · by_cases hproc : k.status = Status.processing
      · by_cases hlt : k.attempt_count < cfg
        · rw [finishErr_retry cfg st fid emsg now k hfm hproc hlt]
          have hkmem := (findJob_eq _ _ _ hfm).2
          refine JobOK_update cfg st.jobs k (retriedJob k now) hkmem hok ⟨?_, ?_⟩
          · show k.attempt_count ≤ cfg
            omega
          · intro _
            exact hlt
        · rw [finishErr_fail cfg st fid emsg now k hfm hproc hlt]
          have hkmem := (findJob_eq _ _ _ hfm).2
          refine JobOK_update cfg st.jobs k (failedJob k emsg now) hkmem hok ⟨?_, ?_⟩
          · show k.attempt_count ≤ cfg
            exact (hok k hkmem).1
          · intro hq
            exact Status.noConfusion (show Status.failed = Status.pending from hq)
      · rw [finishErr_skip cfg st fid emsg now k hfm hproc]
        exact hok

theorem reach_JobOK (cfg : Nat) (st : SystemState) (hcfg : 0 < cfg)
    (h : Reach cfg st) : ∀ x ∈ st.jobs, JobOK cfg x := by
  induction h with
  | refl =>
    intro x hx
    cases hx
  | tail h1 h2 ih => exact step_JobOK cfg _ _ hcfg h2 ih

theorem step_attempt_mono (cfg : Nat) (st st' : SystemState) (id : String)
    (h : Step cfg st st') (hlen : IdLenOK st) :
    attemptOf st id ≤ attemptOf st' id := by
  rcases hf : findJob st.jobs id with _ | j
  · have h0 : attemptOf st id = 0 := by
      unfold attemptOf
      rw [hf]
    rw [h0]
    exact Nat.zero_le _
  · have h0 : attemptOf st id = j.attempt_count := by
      unfold attemptOf
      rw [hf]
    rw [h0]
    rcases step_find cfg st st' h hlen id j hf with
      h1 | ⟨-, t, h1⟩ | ⟨-, t, h1⟩ | ⟨-, -, t, h1⟩ | ⟨-, -, t, m, h1⟩
    · unfold attemptOf
      rw [h1]
    · unfold attemptOf
      rw [h1]
      exact Nat.le_succ _
    · unfold attemptOf
      rw [h1]
      exact le_rfl
    · unfold attemptOf
      rw [h1]
      exact le_rfl
    · unfold attemptOf
      rw [h1]
      exact le_rfl

theorem rtg_attempt_mono (cfg : Nat) (st st' : SystemState) (id : String)
    (hr : Reach cfg st) (h : Relation.ReflTransGen (Step cfg) st st') :
    attemptOf st id ≤ attemptOf st' id := by
  induction h with
  | refl => exact le_rfl
  | tail h1 h2 ih =>
    exact le_trans ih (step_attempt_mono cfg _ _ id h2
      (reach_IdLenOK cfg _ (Relation.ReflTransGen.trans hr h1)))

theorem step_failed_frozen (cfg : Nat) (st st' : SystemState) (id : String) (j : Job)
    (h : Step cfg st st') (hlen : IdLenOK st)
    (hf : findJob st.jobs id = some j) (hjf : j.status = Status.failed) :
    findJob st'.jobs id = some j := by
  rcases step_find cfg st st' h hlen id j hf with
    h1 | ⟨hp, -⟩ | ⟨hp, -⟩ | ⟨hp, -⟩ | ⟨hp, -⟩
  · exact h1
  all_goals rw [hjf] at hp
  all_goals cases hp

theorem rtg_failed_frozen (cfg : Nat) (st st' : SystemState) (id : String) (j : Job)
    (hr : Reach cfg st) (h : Relation.ReflTransGen (Step cfg) st st')
    (hf : findJob st.jobs id = some j) (hjf : j.status = Status.failed) :
    findJob st'.jobs id = some j := by
  induction h with
  | refl => exact hf
  | tail h1 h2 ih =>
    exact step_failed_frozen cfg _ _ id j h2
      (reach_IdLenOK cfg _ (Relation.ReflTransGen.trans hr h1)) ih hjf

/-! ### Claim C5: status enum and no skipped transition -/

/-- Claim C5: along every atomic operation on a reachable state, every
record's status stays in the four-valued enum and moves only along the
allowed edges, so no transition skips `processing`: a `pending` record
never moves directly to `completed` or `failed`. -/
theorem claim_C5 (cfg : Nat) (st st' : SystemState) (id : String) (j j' : Job)
    (hr : Reach cfg st) (hs : Step cfg st st')
    (hf : findJob st.jobs id = some j) (hf' : findJob st'.jobs id = some j') :
    (j'.status = Status.pending ∨ j'.status = Status.processing ∨
      j'.status = Status.completed ∨ j'.status = Status.failed) ∧
    allowedTransition j.status j'.status ∧
    (j.status = Status.pending →
      j'.status ≠ Status.completed ∧ j'.status ≠ Status.failed) := by
  have hlen := reach_IdLenOK cfg st hr
  have hfour : j'.status = Status.pending ∨ j'.status = Status.processing ∨
      j'.status = Status.completed ∨ j'.status = Status.failed := by
    cases hq : j'.status
    · exact Or.inl rfl
    · exact Or.inr (Or.inl rfl)
    · exact Or.inr (Or.inr (Or.inl rfl))
    · exact Or.inr (Or.inr (Or.inr rfl))
  refine ⟨hfour, ?_⟩
  rcases step_find cfg st st' hs hlen id j hf with
    h1 | ⟨hp, t, h1⟩ | ⟨hp, t, h1⟩ | ⟨hp, hlt, t, h1⟩ | ⟨hp, hge, t, m, h1⟩
  · rw [hf'] at h1
    injection h1 with e
    rw [e]
    exact ⟨Or.inl rfl, fun hpd => by simp [hpd]⟩
  · rw [hf'] at h1
    injection h1 with e
    have hst : j'.status = Status.processing := by
      rw [e]
      rfl
    exact ⟨Or.inr (Or.inl ⟨hp, hst⟩), fun _ => by rw [hst]; exact ⟨by decide, by decide⟩⟩
  · rw [hf'] at h1
    injection h1 with e
    have hst : j'.status = Status.completed := by
      rw [e]
      rfl
    refine ⟨Or.inr (Or.inr ⟨hp, Or.inl hst⟩), fun hpd => ?_⟩
    rw [hp] at hpd
    cases hpd
  · rw [hf'] at h1
    injection h1 with e
    have hst : j'.status = Status.pending := by
      rw [e]
      rfl
    refine ⟨Or.inr (Or.inr ⟨hp, Or.inr (Or.inr hst)⟩), fun hpd => ?_⟩
    rw [hp] at hpd
    cases hpd
  · rw [hf'] at h1
    injection h1 with e
    have hst : j'.status = Status.failed := by
      rw [e]
      rfl
    refine ⟨Or.inr (Or.inr ⟨hp, Or.inr (Or.inl hst)⟩), fun hpd => ?_⟩
    rw [hp] at hpd
    cases hpd

theorem claim_C5_witness :
    Reach 3 demoSt1 ∧ findJob demoSt1.jobs demoId = some demoSubJob ∧
    allowedTransition demoSubJob.status demoClaimJob.status :=
  ⟨Relation.ReflTransGen.single (Step.submit initState "video/mp4" "a.mp4" 10 0),
   by decide,
   (claim_C5 3 demoSt1 demoSt2 demoId demoSubJob demoClaimJob
      (Relation.ReflTransGen.single (Step.submit initState "video/mp4" "a.mp4" 10 0))
      (Step.deliver demoSt1 demoMsg 1) (by decide) (by decide)).2.1⟩

/-! ### Claim C7: attempt-count discipline -/

/-- Claim C7 counterexample: with `max_attempts = 1`, a job that succeeds
on its final attempt reaches `attempt_count = 1 = max_attempts` with
terminal status `completed`, not `failed` - so "reaches or exceeds the
ceiling implies failed" is false; only the failure path forces `failed`. -/
theorem claim_C7_counterexample :
    Reach 1 demoDone ∧
    findJob demoDone.jobs demoId = some demoDoneJob ∧
    demoDoneJob.attempt_count = 1 ∧
    1 ≤ demoDoneJob.attempt_count ∧
    demoDoneJob.status = Status.completed ∧
    demoDoneJob.status ≠ Status.failed := by
  refine ⟨?_, by decide, by decide, by decide, by decide, by decide⟩
  have s1 : Step 1 initState demoSt1 := Step.submit initState "video/mp4" "a.mp4" 10 0
  have s2 : Step 1 demoSt1 demoSt2 := Step.deliver demoSt1 demoMsg 1
  have s3 : Step 1 demoSt2 demoDone := Step.finishOk demoSt2 demoId 2
  exact ((Relation.ReflTransGen.single s1).tail s2).tail s3

/-- Claim C7 (amended): with a positive ceiling, `attempt_count` starts at
0 on the record a submission creates, never decreases along any sequence
of operations from a reachable state, and never exceeds `max_attempts` in
any reachable state; a transform failure hitting a job whose count has
reached the ceiling forces terminal `failed` with `error_message` set; and
a `failed` record is frozen - no later operation ever changes it (never
retried).  A job may however still complete on its final attempt with
`attempt_count = max_attempts`. -/
theorem claim_C7_amended (cfg : Nat) (hcfg : 0 < cfg) :
    (∀ st ct fn sz now r, (Submit st ct fn sz now).2 = Except.ok r →
      ∃ jn, findJob (Submit st ct fn sz now).1.jobs r.job_id = some jn ∧
        jn.attempt_count = 0 ∧ jn.status = Status.pending) ∧
    (∀ st st' id, Reach cfg st → Relation.ReflTransGen (Step cfg) st st' →
      attemptOf st id ≤ attemptOf st' id) ∧
    (∀ st, Reach cfg st → ∀ x ∈ st.jobs, x.attempt_count ≤ cfg) ∧
    (∀ st st' id j, Reach cfg st → Relation.ReflTransGen (Step cfg) st st' →
      findJob st.jobs id = some j → j.status = Status.failed →
      findJob st'.jobs id = some j) ∧
    (∀ st id emsg now j, findJob st.jobs id = some j →
      j.status = Status.processing → cfg ≤ j.attempt_count →
      ∃ jf, findJob (finishErr cfg st id emsg now).1.jobs id = some jf ∧
        jf.status = Status.failed ∧ jf.error_message = some emsg) := by
  refine ⟨?_, ?_, ?_, ?_, ?_⟩
  · intro st ct fn sz now r h
    unfold Submit at h ⊢
    by_cases hv : allowedTypes.contains ct = false ∨ maxFileSize < sz
    · rw [if_pos hv] at h
      cases h
    · rw [if_neg hv] at h ⊢
      simp only [Except.ok.injEq] at h
      exact ⟨submitJob st ct fn sz now,
        by rw [← h, findJob_cons, if_pos rfl], rfl, rfl⟩
  · intro st st' id hr hrtg
    exact rtg_attempt_mono cfg st st' id hr hrtg
  · intro st hr x hx
    exact (reach_JobOK cfg st hcfg hr x hx).1
  · intro st st' id j hr hrtg hf hjf
    exact rtg_failed_frozen cfg st st' id j hr hrtg hf hjf
  · intro st id emsg now j hf hp hge
    rw [finishErr_fail cfg st id emsg now j hf hp (by omega)]
    have hid : (failedJob j emsg now).job_id = id := (findJob_eq _ _ _ hf).1
    refine ⟨failedJob j emsg now, ?_, rfl, rfl⟩
    show findJob (updateJob st.jobs (failedJob j emsg now)) id
      = some (failedJob j emsg now)
    rw [← hid]
    exact findJob_updateJob_self st.jobs (failedJob j emsg now) j
      (by rw [hid]; exact hf)

theorem claim_C7_witness :
    0 < 3 ∧ attemptOf demoSt1 demoId ≤ attemptOf demoSt2 demoId :=
  ⟨by decide,
   (claim_C7_amended 3 (by decide)).2.1 demoSt1 demoSt2 demoId
     (Relation.ReflTransGen.single (Step.submit initState "video/mp4" "a.mp4" 10 0))
     (Relation.ReflTransGen.single (Step.deliver demoSt1 demoMsg 1))⟩

end VPS
